import Mathlib

/-!
Verification development for the telemetry analysis pipeline in src/app.py.

The pipeline (function process_file, helper find_data_start_row) reads a raw
table, locates the first data row by date-parsing the first column, renames
the columns to DATE, TIME, DISTANCE, SPEED, coerces DISTANCE and SPEED to
numeric, drops rows with missing values, parses DATE plus TIME into a
timestamp, computes the cumulative distance, and then runs stop detection,
proximity sampling, deceleration-window extraction and summary metrics.

Modelling notes.
* Numeric cells are embedded as rationals; the pandas frame is a rectangular
  list of rows of cells.  The external decoders pd.read_csv and pd.read_excel
  are modelled as padding each row to the frame width, the Excel reader
  additionally restricted to columns A through D.
* The external date parsers (pd.to_datetime on a single cell, and on the
  string concatenation of the DATE and TIME cells) are parameters of the
  pipeline: a parse result of none models the pandas call raising.
* pandas keeps the original integer row labels after dropna, and the analysis
  section indexes data_df by label (loc, idxmin, shift).  Because the labels
  are strictly increasing in row order, label-based slicing loc up to the stop
  label, label ranges, and first-label idxmin coincide with the positional
  prefix, positional range, and first-position argmin over the cleaned sample
  sequence; the model therefore uses positions in the cleaned sequence.
* Outcome.err models the structured error dictionary returned by
  process_file; Outcome.raised models a Python exception escaping
  process_file (only the file-reading step is wrapped in try/except).
-/

/-- A raw cell as handed over by the external table decoder: a missing value
(NaN), a numeric value, or a non-null text value identified by a tag. -/
inductive Cell
  | blank
  | num (q : ℚ)
  | text (tag : ℕ)
deriving DecidableEq

instance : Inhabited Cell := ⟨Cell.blank⟩

/-- pd.isna on a cell: only missing cells are null. -/
def Cell.isna : Cell → Bool
  | .blank => true
  | _ => false

/-- pd.to_numeric with coercion of failures to NaN: numeric cells pass
through, missing and textual cells become NaN (modelled as none).  Numeric
strings are embedded directly as numeric cells. -/
def Cell.toNumeric : Cell → Option ℚ
  | .num q => some q
  | _ => none

/-- Cell j of a row, the frame being rectangular in the source. -/
def cellAt (r : List Cell) (j : ℕ) : Cell := r.getD j Cell.blank

/-- Width of a decoded frame: pandas frames are rectangular, short raw rows
are padded with NaN by the decoder. -/
def tableWidth (rows : List (List Cell)) : ℕ :=
  rows.foldr (fun r m => max r.length m) 0

/-- Pad a row with missing cells up to the frame width. -/
def padRow (n : ℕ) (r : List Cell) : List Cell :=
  r ++ List.replicate (n - r.length) Cell.blank

/-- pd.read_csv with no header row: every column is read. -/
def readCsv (raw : List (List Cell)) : List (List Cell) :=
  raw.map (padRow (tableWidth raw))

/-- pd.read_excel with no header row restricted to columns A through D: at
most the first four columns are read. -/
def readExcel (raw : List (List Cell)) : List (List Cell) :=
  raw.map (fun r => padRow (min (tableWidth raw) 4) (r.take 4))

section Pipeline

variable (pdate : Cell → Option ℕ)
variable (pdt : Cell → Cell → Option ℕ)

/-- find_data_start_row: scan rows top to bottom and return the index of the
first row whose first cell date-parses; none when no row does (the source
returns -1 there). -/
def findDataStartRow : List (List Cell) → Option ℕ
  | [] => none
  | r :: rs =>
    if (pdate (r.headD Cell.blank)).isSome then some 0
    else (findDataStartRow rs).map (· + 1)

/-- The dropna step of process_file on a renamed row: the DATE and TIME cells
must be non-null and the DISTANCE and SPEED cells must coerce to numeric. -/
def rowKept (r : List Cell) : Bool :=
  !(cellAt r 0).isna && !(cellAt r 1).isna &&
    (cellAt r 2).toNumeric.isSome && (cellAt r 3).toNumeric.isSome

/-- DISTANCE value of a kept row (the coercion succeeded on kept rows). -/
def rowDistance (r : List Cell) : ℚ := (cellAt r 2).toNumeric.getD 0

/-- SPEED value of a kept row. -/
def rowSpeed (r : List Cell) : ℚ := (cellAt r 3).toNumeric.getD 0

/-- pd.to_datetime over the combined DATE and TIME column: the call raises
(overall result none) as soon as any row fails to parse. -/
def parseTimestamps (rows : List (List Cell)) : Option (List ℕ) :=
  match rows with
  | [] => some []
  | r :: rs =>
    match pdt (cellAt r 0) (cellAt r 1), parseTimestamps rs with
    | some t, some ts => some (t :: ts)
    | _, _ => none

/-- Running sum of the DISTANCE column including the current row, starting
from an accumulator. -/
def cumsumFrom (acc : ℚ) : List ℚ → List ℚ
  | [] => []
  | d :: ds => (acc + d) :: cumsumFrom (acc + d) ds

/-- CUMULATIVE_DISTANCE column: cumulative sum of DISTANCE divided by 1000. -/
def cumulativeDistances (dists : List ℚ) : List ℚ :=
  (cumsumFrom 0 dists).map (· / 1000)

/-- A cleaned telemetry sample: one row of data_df after cleaning, with its
parsed timestamp and cumulative distance. -/
structure TelemetrySample where
  datetime : ℕ
  distance : ℚ
  speed : ℚ
  cumulative : ℚ
deriving DecidableEq

instance : Inhabited TelemetrySample := ⟨⟨0, 0, 0, 0⟩⟩

/-- Zip the cleaned rows with their parsed timestamps and cumulative
distances, one sample per row. -/
def assemble : List (List Cell) → List ℕ → List ℚ → List TelemetrySample
  | r :: rs, t :: ts, c :: cs => ⟨t, rowDistance r, rowSpeed r, c⟩ :: assemble rs ts cs
  | _, _, _ => []

/-- Assemble the cleaned rows, their parsed timestamps and the cumulative
distances into the sample sequence. -/
def buildSamples (rows : List (List Cell)) (times : List ℕ) : List TelemetrySample :=
  assemble rows times (cumulativeDistances (rows.map rowDistance))

/-- Structured errors: the three error dictionaries process_file returns. -/
inductive StructuredError
  | unreadableTable
  | noDataStartFound
  | emptyAfterCleaning
deriving DecidableEq

/-- Python exceptions that escape process_file: assigning four column names
to a frame of a different width, and pd.to_datetime raising on the combined
DATE and TIME column. -/
inductive PyError
  | columnMismatch
  | datetimeParseError
deriving DecidableEq

/-- Outcome of the pipeline: a value, a structured error dictionary, or an
escaping exception. -/
inductive Outcome (α : Type)
  | ok (a : α)
  | err (e : StructuredError)
  | raised (e : PyError)
deriving DecidableEq

/-- Everything process_file does after the file has been decoded into a
frame: find the data start, truncate, rename the four columns (which requires
the frame width to be exactly four), coerce and drop rows, fail when nothing
remains, parse timestamps, and build the cleaned sample sequence. -/
def pipelineFromDF (df : List (List Cell)) : Outcome (List TelemetrySample) :=
  match findDataStartRow pdate df with
  | none => .err .noDataStartFound
  | some k =>
    let body := df.drop k
    if tableWidth body = 4 then
      let kept := body.filter rowKept
      if kept.isEmpty then .err .emptyAfterCleaning
      else
        match parseTimestamps pdt kept with
        | none => .raised .datetimeParseError
        | some ts => .ok (buildSamples kept ts)
    else .raised .columnMismatch

/-- process_file: decode the file (a decoding failure is caught and returned
as the unreadable-table error), then run the pipeline on the frame. -/
def processFile (isCsv : Bool) (input : Option (List (List Cell))) :
    Outcome (List TelemetrySample) :=
  match input with
  | none => .err .unreadableTable
  | some raw => pipelineFromDF pdate pdt (if isCsv then readCsv raw else readExcel raw)

end Pipeline

/-- Stop detection: positions i with SPEED zero whose predecessor row has
positive SPEED (the shifted comparison is false at position zero). -/
def stopIndices (samples : List TelemetrySample) : List ℕ :=
  (List.range samples.length).filter (fun i =>
    decide (0 < i) && decide ((samples.getD i default).speed = 0) &&
      decide (0 < (samples.getD (i - 1) default).speed))

/-- idxmin of the absolute difference to a target over a column: the first
position attaining the minimum absolute difference. -/
def idxminAbs (t : ℚ) (xs : List ℚ) : ℕ :=
  match (xs.map (fun x => |x - t|)).min? with
  | none => 0
  | some m => (xs.map (fun x => |x - t|)).findIdx (fun d => decide (d = m))

/-- Cumulative distance of the sample at a position. -/
def cumAt (samples : List TelemetrySample) (i : ℕ) : ℚ :=
  (samples.getD i default).cumulative

/-- The configured proximity offsets in meters. -/
def offsets : List ℕ := [1, 10, 50, 100]

/-- Offset in meters converted to kilometers. -/
def offsetKm (o : ℕ) : ℚ := (o : ℚ) / 1000

/-- Proximity sampling for one stop: for each offset, the target distance is
the stop distance minus the offset in kilometers; offsets with non-positive
target are skipped, otherwise the first position of the pre-stop prefix
minimizing the absolute difference to the target is selected. -/
def proximityFor (samples : List TelemetrySample) (stopIdx : ℕ) : List (ℕ × ℕ) :=
  offsets.filterMap (fun o =>
    let target := cumAt samples stopIdx - offsetKm o
    if 0 < target then
      some (o, idxminAbs target ((samples.map (·.cumulative)).take (stopIdx + 1)))
    else none)

/-- Deceleration window for one stop: nearest pre-stop sample to the stop
distance minus one kilometer through the stop position inclusive. -/
def decelWindow (samples : List TelemetrySample) (stopIdx : ℕ) : List TelemetrySample :=
  let target := cumAt samples stopIdx - 1
  let start := idxminAbs target ((samples.map (·.cumulative)).take (stopIdx + 1))
  (samples.take (stopIdx + 1)).drop start

/-- Relative distances in meters of a deceleration window: cumulative
distance rebased at the window minimum, times 1000. -/
def relativeDistancesM (window : List TelemetrySample) : List ℚ :=
  let cums := window.map (·.cumulative)
  let m := cums.min?.getD 0
  cums.map (fun c => (c - m) * 1000)

/-- Total distance metric: last cumulative distance. -/
def totalDistanceKm (samples : List TelemetrySample) : ℚ :=
  (samples.map (·.cumulative)).getLastD 0

/-- Maximum of the SPEED column. -/
def maxSpeed (samples : List TelemetrySample) : ℚ :=
  ((samples.map (·.speed)).max?).getD 0

/-- idxmax of the SPEED column: the first position attaining the maximum. -/
def maxSpeedIdx (samples : List TelemetrySample) : ℕ :=
  (samples.map (·.speed)).findIdx (fun v => decide (v = maxSpeed samples))

/-- Cumulative distance reported next to the maximum speed. -/
def distAtMaxSpeed (samples : List TelemetrySample) : ℚ :=
  (samples.getD (maxSpeedIdx samples) default).cumulative

/-- Timestamp reported next to the maximum speed. -/
def timeAtMaxSpeed (samples : List TelemetrySample) : ℕ :=
  (samples.getD (maxSpeedIdx samples) default).datetime

/-- Example single-cell date parser used for concrete runs: the text cells
tagged 1 and 2 stand for two day-first date strings, everything else fails to
parse. -/
def exDate : Cell → Option ℕ
  | .text 1 => some 100
  | .text 2 => some 200
  | _ => none

/-- Example combined date-and-time parser used for concrete runs: a date text
cell together with a time text cell (tags 11 and 12) parses; any combination
involving garbage text, numbers or blanks raises. -/
def exDT : Cell → Cell → Option ℕ
  | .text 1, .text 11 => some 1011
  | .text 1, .text 12 => some 1012
  | .text 2, .text 11 => some 2011
  | .text 2, .text 12 => some 2012
  | _, _ => none

/-- Concrete sample sequence realizing the spec round-trip scenario: speeds
10, 10, 0, 0, 5 and distance increments 100, 100, 0, 0, 50 meters. -/
def roundTripSamples : List TelemetrySample :=
  [⟨0, 100, 10, 100/1000⟩, ⟨1, 100, 10, 200/1000⟩, ⟨2, 0, 0, 200/1000⟩,
    ⟨3, 0, 0, 200/1000⟩, ⟨4, 50, 5, 250/1000⟩]

/-- Concrete sample sequence with increments 3500, 1500, 0 meters and speeds
5, 5, 0: the nearest sample to one kilometer before the stop lies half a
kilometer short of the target, so the deceleration window spans 1500 m. -/
def decelCexSamples : List TelemetrySample :=
  [⟨0, 3500, 5, 3500/1000⟩, ⟨1, 1500, 5, 5000/1000⟩, ⟨2, 0, 0, 5000/1000⟩]

/-- Concrete frame whose second row has a non-null but unparseable DATE cell
next to perfectly numeric DISTANCE and SPEED cells. -/
def badDateTable : List (List Cell) :=
  [[.text 1, .text 11, .num 5, .num 5], [.text 99, .text 11, .num 5, .num 5]]

/-- Concrete five-column frame with two perfectly good data rows. -/
def fiveColumnTable : List (List Cell) :=
  [[.text 1, .text 11, .num 5, .num 5, .num 7],
    [.text 2, .text 12, .num 3, .num 4, .num 8]]

/-- Concrete frame with no first cell that date-parses. -/
def noDateTable : List (List Cell) :=
  [[.text 99, .num 1, .num 2, .num 3], [.num 4, .num 5, .num 6, .num 7]]

/-- Concrete frame whose single data row has a textual DISTANCE cell. -/
def textDistanceTable : List (List Cell) :=
  [[.text 1, .text 11, .text 99, .num 5]]

/-- Concrete frame with a header row, one good data row, and one row whose
DISTANCE cell is textual and therefore dropped by cleaning. -/
def lenientTable : List (List Cell) :=
  [[.text 99, .blank, .blank, .blank],
    [.text 1, .text 11, .num 5, .num 5],
    [.text 2, .text 12, .text 77, .num 4]]

/-! Helper lemmas. -/

instance : Std.Antisymm ((· : ℚ) ≤ ·) := ⟨fun h h2 => le_antisymm h h2⟩

theorem ratMin?_eq_some_iff {xs : List ℚ} {a : ℚ} :
    xs.min? = some a ↔ a ∈ xs ∧ ∀ b ∈ xs, a ≤ b :=
  List.min?_eq_some_iff (fun a => le_refl a) (fun a b => min_choice a b)
    (fun _ _ _ => le_min_iff)

theorem ratMax?_eq_some_iff {xs : List ℚ} {a : ℚ} :
    xs.max? = some a ↔ a ∈ xs ∧ ∀ b ∈ xs, b ≤ a :=
  List.max?_eq_some_iff (fun a => le_refl a) (fun a b => max_choice a b)
    (fun _ _ _ => max_le_iff)

theorem getD_eq_getElem {α : Type} (l : List α) (d : α) {j : ℕ} (hj : j < l.length) :
    l.getD j d = l[j] := by
  simp [List.getD_eq_getElem?_getD, List.getElem?_eq_getElem hj]

theorem idxminAbs_spec (t : ℚ) (xs : List ℚ) (h : xs ≠ []) :
    idxminAbs t xs < xs.length ∧
      (∀ j, j < xs.length →
        |xs.getD (idxminAbs t xs) 0 - t| ≤ |xs.getD j 0 - t|) ∧
      (∀ j, j < idxminAbs t xs →
        |xs.getD (idxminAbs t xs) 0 - t| < |xs.getD j 0 - t|) := by
  have hne : xs.map (fun x => |x - t|) ≠ [] := by simpa using h
  obtain ⟨m, hm⟩ : ∃ m, (xs.map (fun x => |x - t|)).min? = some m := by
    cases hmin : (xs.map (fun x => |x - t|)).min? with
    | none => exact absurd (List.min?_eq_none_iff.mp hmin) hne
    | some m => exact ⟨m, rfl⟩
  have hmem := (ratMin?_eq_some_iff.mp hm).1
  have hlb := (ratMin?_eq_some_iff.mp hm).2
  have hidx : idxminAbs t xs
      = (xs.map (fun x => |x - t|)).findIdx (fun d => decide (d = m)) := by
    simp [idxminAbs, hm]
  have hex : ∃ x ∈ xs.map (fun x => |x - t|), (fun d => decide (d = m)) x =
      true := ⟨m, hmem, by simp⟩
  have hlt := List.findIdx_lt_length_of_exists hex
  have hlen : (xs.map (fun x => |x - t|)).length = xs.length := List.length_map _ _
  have h1 : idxminAbs t xs < xs.length := by rw [hidx]; exact hlen ▸ hlt
  have hvq : (xs.map (fun x => |x - t|))[idxminAbs t xs]? = some m := by
    rw [hidx, List.getElem?_eq_getElem hlt]
    have h2 := @List.findIdx_getElem _ (fun d => decide (d = m)) (xs.map fun x => |x - t|) hlt
    simpa using h2
  have hvd : (xs.map (fun x => |x - t|)).getD (idxminAbs t xs) 0 = m := by
    rw [List.getD_eq_getElem?_getD, hvq]
    rfl
  have key : ∀ k, k < xs.length →
      (xs.map (fun x => |x - t|)).getD k 0 = |xs.getD k 0 - t| := by
    intro k hk
    rw [getD_eq_getElem _ (0 : ℚ) (show k < (xs.map (fun x => |x - t|)).length from by
      rw [hlen]; exact hk), getD_eq_getElem xs 0 hk]
    simp
  have memD : ∀ k, k < xs.length →
      (xs.map (fun x => |x - t|)).getD k 0 ∈ xs.map (fun x => |x - t|) := by
    intro k hk
    rw [getD_eq_getElem _ (0 : ℚ) (show k < (xs.map (fun x => |x - t|)).length from by
      rw [hlen]; exact hk)]
    exact List.getElem_mem _
  refine ⟨h1, ?_, ?_⟩
  · intro j hj
    rw [← key _ h1, ← key _ hj, hvd]
    exact hlb _ (memD j hj)
  · intro j hj
    have hjlen : j < xs.length := lt_trans hj h1
    rw [← key _ h1, ← key _ hjlen, hvd]
    have hjne : (xs.map (fun x => |x - t|)).getD j 0 ≠ m := by
      have h3 := List.not_of_lt_findIdx (hidx ▸ hj)
      rw [getD_eq_getElem _ (0 : ℚ) (show j < (xs.map (fun x => |x - t|)).length from by
        rw [hlen]; exact hjlen)]
      simpa using h3
    exact lt_of_le_of_ne (hlb _ (memD j hjlen)) (Ne.symm hjne)

theorem chain'_le_getElem {l : List ℚ} (h : List.Chain' (· ≤ ·) l) {a b : ℕ}
    (ha : a < l.length) (hb : b < l.length) (hab : a ≤ b) : l[a] ≤ l[b] := by
  rcases eq_or_lt_of_le hab with rfl | hlt
  · exact le_refl _
  · have hp := List.chain'_iff_pairwise.mp h
    have := List.pairwise_iff_get.mp hp ⟨a, ha⟩ ⟨b, hb⟩ hlt
    simpa using this

theorem cumsumFrom_length (acc : ℚ) (ds : List ℚ) :
    (cumsumFrom acc ds).length = ds.length := by
  induction ds generalizing acc with
  | nil => rfl
  | cons d ds ih => simp [cumsumFrom, ih]

theorem cumulativeDistances_length (ds : List ℚ) :
    (cumulativeDistances ds).length = ds.length := by
  simp [cumulativeDistances, cumsumFrom_length]

theorem cumsumFrom_chain (acc : ℚ) (ds : List ℚ) (h : ∀ d ∈ ds, 0 ≤ d) :
    List.Chain (· ≤ ·) acc (cumsumFrom acc ds) := by
  induction ds generalizing acc with
  | nil => exact List.Chain.nil
  | cons d ds ih =>
    refine List.Chain.cons ?_ (ih (acc + d) fun x hx => h x (List.mem_cons_of_mem _ hx))
    exact le_add_of_nonneg_right (h d (List.mem_cons_self _ _))

theorem cumulativeDistances_chain (ds : List ℚ) (h : ∀ d ∈ ds, 0 ≤ d) :
    List.Chain' (· ≤ ·) (cumulativeDistances ds) := by
  have h2 : List.Chain' (· ≤ ·) ((0 : ℚ) :: cumsumFrom 0 ds) := cumsumFrom_chain 0 ds h
  have h3 : List.Chain' (· ≤ ·) (cumsumFrom 0 ds) := h2.tail
  have h4 : List.Chain' (fun a b : ℚ => a / 1000 ≤ b / 1000) (cumsumFrom 0 ds) :=
    h3.imp (fun _ _ hab => div_le_div_of_nonneg_right hab (by norm_num))
  exact (List.chain'_map _).mpr h4

theorem assemble_map_cumulative : ∀ (rows : List (List Cell)) (ts : List ℕ) (cs : List ℚ),
    (assemble rows ts cs).map (fun s => s.cumulative)
      = cs.take ((assemble rows ts cs).length)
  | [], _, _ => by simp [assemble]
  | _ :: _, [], _ => by simp [assemble]
  | _ :: _, _ :: _, [] => by simp [assemble]
  | r :: rs, t :: ts, c :: cs => by
    simp [assemble, assemble_map_cumulative rs ts cs]

theorem assemble_map_pair : ∀ (rows : List (List Cell)) (ts : List ℕ) (cs : List ℚ),
    (assemble rows ts cs).map (fun s => (s.distance, s.speed))
      = (rows.take ((assemble rows ts cs).length)).map
          (fun r => (rowDistance r, rowSpeed r))
  | [], _, _ => by simp [assemble]
  | _ :: _, [], _ => by simp [assemble]
  | _ :: _, _ :: _, [] => by simp [assemble]
  | r :: rs, t :: ts, c :: cs => by
    simp [assemble, assemble_map_pair rs ts cs]

theorem assemble_length_of_eq : ∀ (rows : List (List Cell)) (ts : List ℕ) (cs : List ℚ),
    ts.length = rows.length → cs.length = rows.length →
      (assemble rows ts cs).length = rows.length
  | [], _, _, _, _ => by simp [assemble]
  | r :: rs, [], _, ht, _ => by simp at ht
  | r :: rs, t :: ts, [], _, hc => by simp at hc
  | r :: rs, t :: ts, c :: cs, ht, hc => by
    simp only [List.length_cons] at ht hc
    simp [assemble, assemble_length_of_eq rs ts cs
      (Nat.succ_injective ht) (Nat.succ_injective hc)]

theorem parseTimestamps_length (pdt : Cell → Cell → Option ℕ) :
    ∀ (rows : List (List Cell)) (ts : List ℕ),
      parseTimestamps pdt rows = some ts → ts.length = rows.length := by
  intro rows
  induction rows with
  | nil => intro ts h; simp [parseTimestamps] at h; simp [← h]
  | cons r rs ih =>
    intro ts h
    simp only [parseTimestamps] at h
    cases h1 : pdt (cellAt r 0) (cellAt r 1) with
    | none => rw [h1] at h; simp at h
    | some t =>
      rw [h1] at h
      cases h2 : parseTimestamps pdt rs with
      | none => rw [h2] at h; simp at h
      | some ts2 =>
        rw [h2] at h
        simp only [Option.some.injEq] at h
        rw [← h]
        simp [ih ts2 h2]

theorem stopIndices_mem (samples : List TelemetrySample) (i : ℕ) :
    i ∈ stopIndices samples ↔
      0 < i ∧ i < samples.length ∧ (samples.getD i default).speed = 0 ∧
        0 < (samples.getD (i - 1) default).speed := by
  simp only [stopIndices, List.mem_filter, List.mem_range, Bool.and_eq_true,
    decide_eq_true_eq]
  tauto

theorem stopIndices_sorted (samples : List TelemetrySample) :
    List.Pairwise (· < ·) (stopIndices samples) :=
  List.Pairwise.filter _ (List.pairwise_lt_range _)

/-- C5: StopDetector reports exactly the positions i greater than zero whose
SPEED is zero while the previous SPEED is positive, in ascending order; a
sequence without such a transition yields the empty event list, and a
position following a zero-speed position is never reported. -/
theorem c5_stop_detector_contract (samples : List TelemetrySample) :
    (∀ i, i ∈ stopIndices samples ↔
        0 < i ∧ i < samples.length ∧ (samples.getD i default).speed = 0 ∧
          0 < (samples.getD (i - 1) default).speed) ∧
      List.Pairwise (· < ·) (stopIndices samples) ∧
      ((∀ i, i < samples.length → ¬(0 < i ∧ (samples.getD i default).speed = 0 ∧
          0 < (samples.getD (i - 1) default).speed)) → stopIndices samples = []) ∧
      (∀ i, (samples.getD i default).speed = 0 → i + 1 ∉ stopIndices samples) := by
  refine ⟨stopIndices_mem samples, stopIndices_sorted samples, ?_, ?_⟩
  · intro hnone
    rw [List.eq_nil_iff_forall_not_mem]
    intro i hi
    rw [stopIndices_mem] at hi
    exact hnone i hi.2.1 ⟨hi.1, hi.2.2.1, hi.2.2.2⟩
  · intro i h0 hmem
    rw [stopIndices_mem] at hmem
    have hpos := hmem.2.2.2
    rw [Nat.add_sub_cancel, h0] at hpos
    exact lt_irrefl 0 hpos

/-- C5 witness at the round-trip scenario samples. -/
theorem c5_stop_detector_contract_witness :
    2 ∈ stopIndices roundTripSamples ∧ 3 ∉ stopIndices roundTripSamples := by
  constructor
  · refine ((c5_stop_detector_contract roundTripSamples).1 2).mpr ?_
    refine ⟨by norm_num, by simp [roundTripSamples], ?_, ?_⟩
    · norm_num [roundTripSamples]
    · norm_num [roundTripSamples]
  · exact (c5_stop_detector_contract roundTripSamples).2.2.2 2
      (by simp [roundTripSamples])

/-- C9: re-running the sniffer on the table truncated at the index it found
returns index zero. -/
theorem c9_sniffer_idempotent (pdate : Cell → Option ℕ) (df : List (List Cell))
    (k : ℕ) (h : findDataStartRow pdate df = some k) :
    findDataStartRow pdate (df.drop k) = some 0 := by
  induction df generalizing k with
  | nil => simp [findDataStartRow] at h
  | cons r rs ih =>
    rw [show findDataStartRow pdate (r :: rs)
        = if (pdate (r.headD Cell.blank)).isSome then some 0
          else (findDataStartRow pdate rs).map (· + 1) from rfl] at h
    by_cases hp : (pdate (r.headD Cell.blank)).isSome
    · rw [if_pos hp] at h
      have hk : k = 0 := (Option.some.inj h).symm
      subst hk
      rw [List.drop_zero]
      rw [show findDataStartRow pdate (r :: rs)
          = if (pdate (r.headD Cell.blank)).isSome then some 0
            else (findDataStartRow pdate rs).map (· + 1) from rfl, if_pos hp]
    · rw [if_neg hp] at h
      cases hfr : findDataStartRow pdate rs with
      | none => rw [hfr] at h; simp at h
      | some k2 =>
        rw [hfr] at h
        simp only [Option.map_some', Option.some.injEq] at h
        subst h
        rw [List.drop_succ_cons]
        exact ih k2 hfr

/-- C9 witness: the sniffer finds row one of the concrete lenient table, and
re-running it on the truncated table yields row zero. -/
theorem c9_sniffer_idempotent_witness :
    findDataStartRow exDate (lenientTable.drop 1) = some 0 :=
  c9_sniffer_idempotent exDate lenientTable 1 (by decide)

/-- C7: when every distance increment is non-negative, the cumulative
distances of the built sample sequence are non-decreasing. -/
theorem c7_cumulative_monotone (rows : List (List Cell)) (ts : List ℕ)
    (h : ∀ r ∈ rows, 0 ≤ rowDistance r) :
    List.Chain' (· ≤ ·) ((buildSamples rows ts).map (fun s => s.cumulative)) := by
  unfold buildSamples
  rw [assemble_map_cumulative]
  refine List.Chain'.take ?_ _
  refine cumulativeDistances_chain _ ?_
  intro d hd
  obtain ⟨r, hr, rfl⟩ := List.mem_map.mp hd
  exact h r hr

/-- C7 witness at a concrete pair of cleaned rows and timestamps. -/
theorem c7_cumulative_monotone_witness :
    List.Chain' (· ≤ ·)
      ((buildSamples [[Cell.text 1, Cell.text 11, Cell.num 100, Cell.num 10],
          [Cell.text 2, Cell.text 12, Cell.num 50, Cell.num 5]] [1011, 2012]).map
        (fun s => s.cumulative)) :=
  c7_cumulative_monotone _ _ (by decide)

/-- C6: total distance is the last cumulative distance, max speed is the true
maximum of the SPEED column, the bound index is the first position attaining
the maximum, and the reported distance and timestamp come from that
position. -/
theorem c6_metrics_summarizer (samples : List TelemetrySample) (h : samples ≠ []) :
    totalDistanceKm samples = (samples.getLast h).cumulative ∧
      (∀ s ∈ samples, s.speed ≤ maxSpeed samples) ∧
      maxSpeedIdx samples < samples.length ∧
      (samples.getD (maxSpeedIdx samples) default).speed = maxSpeed samples ∧
      (∀ j, j < maxSpeedIdx samples →
        (samples.getD j default).speed < maxSpeed samples) ∧
      distAtMaxSpeed samples = (samples.getD (maxSpeedIdx samples) default).cumulative ∧
      timeAtMaxSpeed samples = (samples.getD (maxSpeedIdx samples) default).datetime := by
  have hlp : 0 < samples.length := List.length_pos.mpr h
  have hlast : samples.length - 1 < samples.length := Nat.sub_lt hlp one_pos
  have htotal : totalDistanceKm samples = (samples.getLast h).cumulative := by
    rw [totalDistanceKm, List.getLastD_eq_getLast?, List.getLast?_eq_getElem?,
      List.getLast_eq_getElem]
    simp [List.getElem?_eq_getElem, hlast]
  obtain ⟨m, hm⟩ : ∃ m, (samples.map (fun s => s.speed)).max? = some m := by
    cases hmx : (samples.map (fun s => s.speed)).max? with
    | none =>
      rw [List.max?_eq_none_iff] at hmx
      simp only [List.map_eq_nil_iff] at hmx
      exact absurd hmx h
    | some m => exact ⟨m, rfl⟩
  have hmem := (ratMax?_eq_some_iff.mp hm).1
  have hub := (ratMax?_eq_some_iff.mp hm).2
  have hmax : maxSpeed samples = m := by simp [maxSpeed, hm]
  have hex : ∃ x ∈ samples.map (fun s => s.speed),
      (fun v => decide (v = maxSpeed samples)) x = true := ⟨m, hmem, by simp [hmax]⟩
  have hlt := List.findIdx_lt_length_of_exists hex
  have hlen : (samples.map (fun s => s.speed)).length = samples.length :=
    List.length_map _ _
  have hidxlt : maxSpeedIdx samples < samples.length := by
    rw [maxSpeedIdx]; exact hlen ▸ hlt
  have hvq : (samples.map (fun s => s.speed))[maxSpeedIdx samples]?
      = some (maxSpeed samples) := by
    rw [show maxSpeedIdx samples = List.findIdx (fun v => decide (v = maxSpeed samples))
      (samples.map fun s => s.speed) from rfl, List.getElem?_eq_getElem hlt]
    have h2 := @List.findIdx_getElem _ (fun v => decide (v = maxSpeed samples))
      (samples.map fun s => s.speed) hlt
    simpa using h2
  have hvd : (samples.map (fun s => s.speed)).getD (maxSpeedIdx samples) 0
      = maxSpeed samples := by
    rw [List.getD_eq_getElem?_getD, hvq]
    rfl
  have hspeed : ∀ k, k < samples.length →
      (samples.map (fun s => s.speed)).getD k 0 = (samples.getD k default).speed := by
    intro k hk
    rw [getD_eq_getElem _ (0 : ℚ) (show k < (samples.map (fun s => s.speed)).length from
      by rw [hlen]; exact hk), getD_eq_getElem samples default hk]
    simp
  have memD : ∀ k, k < samples.length →
      (samples.map (fun s => s.speed)).getD k 0 ∈ samples.map (fun s => s.speed) := by
    intro k hk
    rw [getD_eq_getElem _ (0 : ℚ) (show k < (samples.map (fun s => s.speed)).length from
      by rw [hlen]; exact hk)]
    exact List.getElem_mem _
  refine ⟨htotal, ?_, hidxlt, ?_, ?_, rfl, rfl⟩
  · intro s hs
    rw [hmax]
    exact hub _ (List.mem_map_of_mem _ hs)
  · rw [← hspeed _ hidxlt]
    exact hvd
  · intro j hj
    have hjlen : j < samples.length := lt_trans hj hidxlt
    rw [← hspeed _ hjlen]
    have hjne : (samples.map (fun s => s.speed)).getD j 0 ≠ maxSpeed samples := by
      have hj2 : j < List.findIdx (fun v => decide (v = maxSpeed samples))
          (samples.map fun s => s.speed) := hj
      have h3 := List.not_of_lt_findIdx hj2
      rw [getD_eq_getElem _ (0 : ℚ) (show j < (samples.map (fun s => s.speed)).length
        from by rw [hlen]; exact hjlen)]
      simpa using h3
    rw [hmax] at hjne ⊢
    exact lt_of_le_of_ne (hub _ (memD j hjlen)) hjne

/-- C6 witness at the round-trip scenario samples. -/
theorem c6_metrics_summarizer_witness :
    totalDistanceKm roundTripSamples
        = (roundTripSamples.getLast (by simp [roundTripSamples])).cumulative ∧
      maxSpeedIdx roundTripSamples < roundTripSamples.length :=
  ⟨(c6_metrics_summarizer roundTripSamples (by simp [roundTripSamples])).1,
    (c6_metrics_summarizer roundTripSamples (by simp [roundTripSamples])).2.2.1⟩

/-- C4: for each configured offset, an offset whose target distance is not
positive is skipped and never appears in the output; every emitted pair
selects, among the samples up to the stop position inclusive, the first
position minimizing the absolute difference of cumulative distance to the
target; every reachable configured offset is emitted. -/
theorem c4_proximity_sampler (samples : List TelemetrySample) (stopIdx : ℕ)
    (hi : stopIdx < samples.length) :
    (∀ o, cumAt samples stopIdx - offsetKm o ≤ 0 →
        ∀ j, (o, j) ∉ proximityFor samples stopIdx) ∧
      (∀ o j, (o, j) ∈ proximityFor samples stopIdx →
        o ∈ offsets ∧ 0 < cumAt samples stopIdx - offsetKm o ∧ j ≤ stopIdx ∧
          (∀ k, k ≤ stopIdx →
            |cumAt samples j - (cumAt samples stopIdx - offsetKm o)|
              ≤ |cumAt samples k - (cumAt samples stopIdx - offsetKm o)|) ∧
          (∀ k, k < j →
            |cumAt samples j - (cumAt samples stopIdx - offsetKm o)|
              < |cumAt samples k - (cumAt samples stopIdx - offsetKm o)|)) ∧
      (∀ o, o ∈ offsets → 0 < cumAt samples stopIdx - offsetKm o →
        ∃ j, (o, j) ∈ proximityFor samples stopIdx) := by
  have hpre_len : ((samples.map (fun s => s.cumulative)).take (stopIdx + 1)).length
      = stopIdx + 1 := by
    simp only [List.length_take, List.length_map]
    omega
  have hpre_ne : (samples.map (fun s => s.cumulative)).take (stopIdx + 1) ≠ [] := by
    apply List.ne_nil_of_length_pos
    rw [hpre_len]
    exact Nat.succ_pos _
  have hpre_getD : ∀ k, k ≤ stopIdx →
      ((samples.map (fun s => s.cumulative)).take (stopIdx + 1)).getD k 0
        = cumAt samples k := by
    intro k hk
    have hk1 : k < stopIdx + 1 := Nat.lt_succ_of_le hk
    have hk2 : k < samples.length := lt_of_le_of_lt hk hi
    rw [getD_eq_getElem _ _ (by rw [hpre_len]; exact hk1)]
    rw [List.getElem_take, List.getElem_map, cumAt, getD_eq_getElem samples default hk2]
  refine ⟨?_, ?_, ?_⟩
  · intro o hle j hmem
    simp only [proximityFor, List.mem_filterMap] at hmem
    obtain ⟨o2, ho2, hf⟩ := hmem
    by_cases hc : 0 < cumAt samples stopIdx - offsetKm o2
    · rw [if_pos hc] at hf
      have h1 := Option.some.inj hf
      have ho : o2 = o := congrArg Prod.fst h1
      rw [ho] at hc
      exact absurd hc (not_lt.mpr hle)
    · rw [if_neg hc] at hf
      exact Option.noConfusion hf
  · intro o j hmem
    simp only [proximityFor, List.mem_filterMap] at hmem
    obtain ⟨o2, ho2, hf⟩ := hmem
    by_cases hc : 0 < cumAt samples stopIdx - offsetKm o2
    · rw [if_pos hc] at hf
      have h1 := Option.some.inj hf
      rw [Prod.mk.injEq] at h1
      obtain ⟨ho, hj0⟩ := h1
      subst ho
      obtain ⟨hs1, hs2, hs3⟩ := idxminAbs_spec (cumAt samples stopIdx - offsetKm o2)
        ((samples.map (fun s => s.cumulative)).take (stopIdx + 1)) hpre_ne
      rw [hpre_len] at hs1
      have hj : j = idxminAbs (cumAt samples stopIdx - offsetKm o2)
          ((samples.map (fun s => s.cumulative)).take (stopIdx + 1)) := hj0.symm
      have hjle : j ≤ stopIdx := by
        rw [hj]
        exact Nat.lt_succ_iff.mp hs1
      refine ⟨ho2, hc, hjle, ?_, ?_⟩
      · intro k hk
        have h3 := hs2 k (by rw [hpre_len]; exact Nat.lt_succ_of_le hk)
        rwa [hpre_getD k hk, hpre_getD _ (Nat.lt_succ_iff.mp hs1), ← hj] at h3
      · intro k hk
        have hkle : k ≤ stopIdx := le_trans (le_of_lt hk) hjle
        have h3 := hs3 k (by rw [← hj]; exact hk)
        rwa [hpre_getD k hkle, hpre_getD _ (Nat.lt_succ_iff.mp hs1), ← hj] at h3
    · rw [if_neg hc] at hf
      exact Option.noConfusion hf
  · intro o ho hpos
    refine ⟨idxminAbs (cumAt samples stopIdx - offsetKm o)
      ((samples.map (fun s => s.cumulative)).take (stopIdx + 1)), ?_⟩
    simp only [proximityFor, List.mem_filterMap]
    exact ⟨o, ho, by rw [if_pos hpos]⟩

/-- C4 witness at the round-trip scenario samples with the stop at position
two: every reachable offset is emitted and the unreachable ones vanish. -/
theorem c4_proximity_sampler_witness :
    (∃ j, (50, j) ∈ proximityFor roundTripSamples 2) ∧
      ∀ j, (1000, j) ∉ proximityFor roundTripSamples 2 := by
  constructor
  · refine (c4_proximity_sampler roundTripSamples 2 (by simp [roundTripSamples])).2.2
      50 (by simp [offsets]) ?_
    norm_num [cumAt, offsetKm, roundTripSamples]
  · refine (c4_proximity_sampler roundTripSamples 2 (by simp [roundTripSamples])).1
      1000 ?_
    norm_num [cumAt, offsetKm, roundTripSamples]

theorem prefixCums_length (samples : List TelemetrySample) (i : ℕ)
    (hi : i < samples.length) :
    ((samples.map (fun s => s.cumulative)).take (i + 1)).length = i + 1 := by
  simp only [List.length_take, List.length_map]
  omega

theorem prefixCums_ne (samples : List TelemetrySample) (i : ℕ)
    (hi : i < samples.length) :
    (samples.map (fun s => s.cumulative)).take (i + 1) ≠ [] := by
  apply List.ne_nil_of_length_pos
  rw [prefixCums_length samples i hi]
  exact Nat.succ_pos _

theorem prefixCums_getD (samples : List TelemetrySample) (i : ℕ)
    (hi : i < samples.length) (k : ℕ) (hk : k ≤ i) :
    ((samples.map (fun s => s.cumulative)).take (i + 1)).getD k 0
      = cumAt samples k := by
  have hk1 : k < i + 1 := Nat.lt_succ_of_le hk
  have hk2 : k < samples.length := lt_of_le_of_lt hk hi
  rw [getD_eq_getElem _ _ (by rw [prefixCums_length samples i hi]; exact hk1)]
  rw [List.getElem_take, List.getElem_map, cumAt, getD_eq_getElem samples default hk2]

theorem decelWindow_eq (samples : List TelemetrySample) (i : ℕ) :
    decelWindow samples i
      = (samples.take (i + 1)).drop
          (idxminAbs (cumAt samples i - 1)
            ((samples.map (fun s => s.cumulative)).take (i + 1))) := rfl

theorem decelWindow_start_lt (samples : List TelemetrySample) (i : ℕ)
    (hi : i < samples.length) :
    idxminAbs (cumAt samples i - 1)
      ((samples.map (fun s => s.cumulative)).take (i + 1)) < i + 1 := by
  have := (idxminAbs_spec (cumAt samples i - 1)
    ((samples.map (fun s => s.cumulative)).take (i + 1))
    (prefixCums_ne samples i hi)).1
  rwa [prefixCums_length samples i hi] at this

theorem decelWindow_length (samples : List TelemetrySample) (i : ℕ)
    (hi : i < samples.length) :
    (decelWindow samples i).length
      = i + 1 - idxminAbs (cumAt samples i - 1)
          ((samples.map (fun s => s.cumulative)).take (i + 1)) := by
  rw [decelWindow_eq]
  simp only [List.length_drop, List.length_take]
  omega

theorem decelWindow_ne_nil (samples : List TelemetrySample) (i : ℕ)
    (hi : i < samples.length) : decelWindow samples i ≠ [] := by
  apply List.ne_nil_of_length_pos
  rw [decelWindow_length samples i hi]
  have := decelWindow_start_lt samples i hi
  omega

theorem decelWindow_map_cumulative (samples : List TelemetrySample) (i : ℕ) :
    (decelWindow samples i).map (fun s => s.cumulative)
      = ((samples.map (fun s => s.cumulative)).take (i + 1)).drop
          (idxminAbs (cumAt samples i - 1)
            ((samples.map (fun s => s.cumulative)).take (i + 1))) := by
  rw [decelWindow_eq, List.map_drop, List.map_take]

/-- C10: the deceleration window of a detected stop is non-empty, its last
sample is the stop sample, and the last speed of the emitted profile is
exactly zero. -/
theorem c10_decel_window_ends_at_stop (samples : List TelemetrySample) (i : ℕ)
    (h : i ∈ stopIndices samples) :
    decelWindow samples i ≠ [] ∧
      (decelWindow samples i).getLast? = some (samples.getD i default) ∧
      ((decelWindow samples i).map (fun s => s.speed)).getLast? = some 0 := by
  obtain ⟨hpos, hi, hsp, hprev⟩ := (stopIndices_mem samples i).mp h
  have hne := decelWindow_ne_nil samples i hi
  have hstart := decelWindow_start_lt samples i hi
  have hlast : (decelWindow samples i).getLast? = some (samples.getD i default) := by
    rw [List.getLast?_eq_getElem?, decelWindow_length samples i hi, decelWindow_eq]
    rw [List.getElem?_drop]
    have harith : idxminAbs (cumAt samples i - 1)
        ((samples.map (fun s => s.cumulative)).take (i + 1))
          + (i + 1 - idxminAbs (cumAt samples i - 1)
            ((samples.map (fun s => s.cumulative)).take (i + 1)) - 1) = i := by
      omega
    rw [harith, List.getElem?_take_of_lt (Nat.lt_succ_self i),
      List.getElem?_eq_getElem hi, getD_eq_getElem samples default hi]
  refine ⟨hne, hlast, ?_⟩
  rw [List.getLast?_map, hlast, Option.map_some', hsp]

/-- C10 witness at the deceleration counterexample samples, whose stop is at
position two. -/
theorem c10_decel_window_ends_at_stop_witness :
    decelWindow decelCexSamples 2 ≠ [] ∧
      (decelWindow decelCexSamples 2).getLast?
        = some (decelCexSamples.getD 2 default) ∧
      ((decelWindow decelCexSamples 2).map (fun s => s.speed)).getLast? = some 0 := by
  refine c10_decel_window_ends_at_stop decelCexSamples 2 ?_
  refine (stopIndices_mem decelCexSamples 2).mpr ?_
  refine ⟨by norm_num, by simp [decelCexSamples], ?_, ?_⟩
  · norm_num [decelCexSamples]
  · norm_num [decelCexSamples]


theorem cumAt_mono (samples : List TelemetrySample)
    (hmono : List.Chain' (· ≤ ·) (samples.map (fun s => s.cumulative)))
    {a b : ℕ} (hab : a ≤ b) (hb : b < samples.length) :
    cumAt samples a ≤ cumAt samples b := by
  have ha : a < samples.length := lt_of_le_of_lt hab hb
  have ha2 : a < (samples.map (fun s => s.cumulative)).length := by
    rw [List.length_map]; exact ha
  have hb2 : b < (samples.map (fun s => s.cumulative)).length := by
    rw [List.length_map]; exact hb
  have h := chain'_le_getElem hmono ha2 hb2 hab
  rw [List.getElem_map, List.getElem_map] at h
  rw [cumAt, cumAt, getD_eq_getElem samples default ha, getD_eq_getElem samples default hb]
  exact h

theorem decelWindow_cum_mem (samples : List TelemetrySample) (i : ℕ)
    (hi : i < samples.length) :
    ∀ c ∈ (decelWindow samples i).map (fun s => s.cumulative),
      ∃ j, idxminAbs (cumAt samples i - 1)
          ((samples.map (fun s => s.cumulative)).take (i + 1)) ≤ j ∧ j ≤ i ∧
        c = cumAt samples j := by
  intro c hc
  rw [decelWindow_map_cumulative] at hc
  obtain ⟨k, hk, hck⟩ := List.mem_iff_getElem.mp hc
  rw [List.length_drop, prefixCums_length samples i hi] at hk
  refine ⟨idxminAbs (cumAt samples i - 1)
    ((samples.map (fun s => s.cumulative)).take (i + 1)) + k,
    Nat.le_add_right _ _, by omega, ?_⟩
  have hj : idxminAbs (cumAt samples i - 1)
      ((samples.map (fun s => s.cumulative)).take (i + 1)) + k < samples.length := by
    have : idxminAbs (cumAt samples i - 1)
        ((samples.map (fun s => s.cumulative)).take (i + 1)) + k ≤ i := by omega
    exact lt_of_le_of_lt this hi
  rw [← hck, List.getElem_drop, List.getElem_take, List.getElem_map]
  exact congrArg (fun s => s.cumulative) (getD_eq_getElem samples default hj).symm

theorem decelWindow_start_ge (samples : List TelemetrySample) (i : ℕ)
    (hi : i < samples.length) :
    cumAt samples i - 2
      ≤ cumAt samples (idxminAbs (cumAt samples i - 1)
          ((samples.map (fun s => s.cumulative)).take (i + 1))) := by
  have hstartle : idxminAbs (cumAt samples i - 1)
      ((samples.map (fun s => s.cumulative)).take (i + 1)) ≤ i :=
    Nat.lt_succ_iff.mp (decelWindow_start_lt samples i hi)
  have hspec := (idxminAbs_spec (cumAt samples i - 1)
    ((samples.map (fun s => s.cumulative)).take (i + 1))
    (prefixCums_ne samples i hi)).2.1
  have h1 := hspec i (by rw [prefixCums_length samples i hi]; exact Nat.lt_succ_self i)
  rw [prefixCums_getD samples i hi _ hstartle,
    prefixCums_getD samples i hi i (le_refl i)] at h1
  have h2 : |cumAt samples i - (cumAt samples i - 1)| = 1 := by
    rw [show cumAt samples i - (cumAt samples i - 1) = 1 by ring]
    norm_num
  rw [h2] at h1
  have h3 := (abs_le.mp h1).1
  linarith

/-- C1 (amended): every deceleration window rebases to a minimum relative
distance of exactly zero; under non-decreasing cumulative distances every
relative distance is between 0 and 2000 meters, since the window start can
undershoot the one-kilometer target by up to another kilometer. -/
theorem c1_decel_profile_rebased (samples : List TelemetrySample) (i : ℕ)
    (hi : i < samples.length)
    (hmono : List.Chain' (· ≤ ·) (samples.map (fun s => s.cumulative))) :
    (relativeDistancesM (decelWindow samples i)).min? = some 0 ∧
      ∀ x ∈ relativeDistancesM (decelWindow samples i), 0 ≤ x ∧ x ≤ 2000 := by
  have hwne : (decelWindow samples i).map (fun s => s.cumulative) ≠ [] := by
    simpa using decelWindow_ne_nil samples i hi
  obtain ⟨m0, hm0⟩ : ∃ m0,
      ((decelWindow samples i).map (fun s => s.cumulative)).min? = some m0 := by
    cases hx : ((decelWindow samples i).map (fun s => s.cumulative)).min? with
    | none => exact absurd (List.min?_eq_none_iff.mp hx) hwne
    | some m0 => exact ⟨m0, rfl⟩
  have hm0mem := (ratMin?_eq_some_iff.mp hm0).1
  have hm0lb := (ratMin?_eq_some_iff.mp hm0).2
  have hrel : relativeDistancesM (decelWindow samples i)
      = ((decelWindow samples i).map (fun s => s.cumulative)).map
          (fun c => (c - m0) * 1000) := by
    rw [relativeDistancesM, hm0]
    rfl
  have hup : ∀ c ∈ (decelWindow samples i).map (fun s => s.cumulative),
      c ≤ cumAt samples i := by
    intro c hc
    obtain ⟨j, hj1, hj2, rfl⟩ := decelWindow_cum_mem samples i hi c hc
    exact cumAt_mono samples hmono hj2 hi
  have hdown : cumAt samples i - 2 ≤ m0 := by
    obtain ⟨j, hj1, hj2, rfl⟩ := decelWindow_cum_mem samples i hi m0 hm0mem
    refine le_trans (decelWindow_start_ge samples i hi) ?_
    exact cumAt_mono samples hmono hj1 (lt_of_le_of_lt hj2 hi)
  constructor
  · rw [hrel]
    refine ratMin?_eq_some_iff.mpr ⟨?_, ?_⟩
    · exact List.mem_map.mpr ⟨m0, hm0mem, by ring_nf⟩
    · intro b hb
      obtain ⟨c, hc, rfl⟩ := List.mem_map.mp hb
      have := hm0lb c hc
      nlinarith
  · intro x hx
    rw [hrel] at hx
    obtain ⟨c, hc, rfl⟩ := List.mem_map.mp hx
    have h1 := hm0lb c hc
    have h2 := hup c hc
    constructor
    · nlinarith
    · nlinarith

/-- C1 counterexample: for the concrete samples with cumulative distances
3.5, 5 and 5 kilometers and a stop at position two, the nearest sample to the
one-kilometer target is position zero, and the emitted profile contains the
relative distance 1500 meters, exceeding the claimed 1000 meter bound. -/
theorem c1_relative_distance_exceeds_1000 :
    2 ∈ stopIndices decelCexSamples ∧
      (1500 : ℚ) ∈ relativeDistancesM (decelWindow decelCexSamples 2) ∧
      ¬((1500 : ℚ) ≤ 1000) := by
  refine ⟨?_, ?_, by norm_num⟩
  · rw [show stopIndices decelCexSamples = [2] from by
      norm_num [stopIndices, decelCexSamples, List.range, List.range.loop, List.filter]]
    simp
  · rw [show relativeDistancesM (decelWindow decelCexSamples 2) = [0, 1500, 1500] from by
      norm_num [relativeDistancesM, decelWindow, decelCexSamples, idxminAbs, cumAt,
        List.min?, List.findIdx, List.findIdx.go, min_def, abs_of_nonpos, abs_of_nonneg]]
    simp

/-- C1 witness at the deceleration counterexample samples: the amended bounds
hold there. -/
theorem c1_decel_profile_rebased_witness :
    (relativeDistancesM (decelWindow decelCexSamples 2)).min? = some 0 ∧
      ∀ x ∈ relativeDistancesM (decelWindow decelCexSamples 2), 0 ≤ x ∧ x ≤ 2000 :=
  c1_decel_profile_rebased decelCexSamples 2 (by simp [decelCexSamples])
    (by norm_num [decelCexSamples, List.chain'_cons, List.chain'_singleton])

theorem pipelineFromDF_none (pdate : Cell → Option ℕ) (pdt : Cell → Cell → Option ℕ)
    (df : List (List Cell)) (h : findDataStartRow pdate df = none) :
    pipelineFromDF pdate pdt df = .err .noDataStartFound := by
  simp only [pipelineFromDF, h]

theorem pipelineFromDF_some (pdate : Cell → Option ℕ) (pdt : Cell → Cell → Option ℕ)
    (df : List (List Cell)) (k : ℕ) (h : findDataStartRow pdate df = some k) :
    pipelineFromDF pdate pdt df
      = if tableWidth (df.drop k) = 4 then
          if ((df.drop k).filter rowKept).isEmpty then .err .emptyAfterCleaning
          else
            match parseTimestamps pdt ((df.drop k).filter rowKept) with
            | none => .raised .datetimeParseError
            | some ts => .ok (buildSamples ((df.drop k).filter rowKept) ts)
        else .raised .columnMismatch := by
  simp only [pipelineFromDF, h]

/-- C8: the pipeline reports the no-data-start error exactly when no row of
the frame has a first cell that date-parses, and, for a four-column body, the
empty-after-cleaning error exactly when every row at or after the data start
is dropped by cleaning. -/
theorem c8_error_conditions (pdate : Cell → Option ℕ) (pdt : Cell → Cell → Option ℕ) :
    (∀ df, pipelineFromDF pdate pdt df = .err .noDataStartFound ↔
        findDataStartRow pdate df = none) ∧
      (∀ df, findDataStartRow pdate df = none ↔
        ∀ r ∈ df, pdate (r.headD Cell.blank) = none) ∧
      (∀ df k, findDataStartRow pdate df = some k → tableWidth (df.drop k) = 4 →
        (pipelineFromDF pdate pdt df = .err .emptyAfterCleaning ↔
          ∀ r ∈ df.drop k, rowKept r = false)) := by
  refine ⟨?_, ?_, ?_⟩
  · intro df
    constructor
    · intro h
      cases hf : findDataStartRow pdate df with
      | none => rfl
      | some k =>
        rw [pipelineFromDF_some pdate pdt df k hf] at h
        by_cases hw : tableWidth (df.drop k) = 4
        · rw [if_pos hw] at h
          by_cases he : ((df.drop k).filter rowKept).isEmpty
          · rw [if_pos he] at h
            simp at h
          · rw [if_neg he] at h
            cases hp : parseTimestamps pdt ((df.drop k).filter rowKept) with
            | none => rw [hp] at h; simp at h
            | some ts => rw [hp] at h; simp at h
        · rw [if_neg hw] at h
          simp at h
    · intro h
      exact pipelineFromDF_none pdate pdt df h
  · intro df
    induction df with
    | nil => simp [findDataStartRow]
    | cons r rs ih =>
      rw [show findDataStartRow pdate (r :: rs)
          = if (pdate (r.headD Cell.blank)).isSome then some 0
            else (findDataStartRow pdate rs).map (· + 1) from rfl]
      by_cases hp : (pdate (r.headD Cell.blank)).isSome
      · rw [if_pos hp]
        constructor
        · intro h0
          exact Option.noConfusion h0
        · intro hall
          exact absurd (hall r (List.mem_cons_self r rs))
            (Option.isSome_iff_ne_none.mp hp)
      · rw [if_neg hp]
        have hr : pdate (r.headD Cell.blank) = none :=
          Option.not_isSome_iff_eq_none.mp hp
        constructor
        · intro h0 r2 hr2
          rcases List.mem_cons.mp hr2 with rfl | hmem
          · exact hr
          · exact ih.mp (Option.map_eq_none'.mp h0) r2 hmem
        · intro hall
          rw [Option.map_eq_none']
          exact ih.mpr (fun r2 hm => hall r2 (List.mem_cons_of_mem _ hm))
  · intro df k hf hw
    rw [pipelineFromDF_some pdate pdt df k hf, if_pos hw]
    by_cases he : ((df.drop k).filter rowKept).isEmpty
    · rw [if_pos he]
      rw [List.isEmpty_iff] at he
      constructor
      · intro _
        intro r hr
        by_contra hbad
        have hkept : rowKept r = true := by
          cases hkr : rowKept r with
          | false => exact absurd hkr hbad
          | true => rfl
        have : r ∈ (df.drop k).filter rowKept := List.mem_filter.mpr ⟨hr, hkept⟩
        rw [he] at this
        exact absurd this (List.not_mem_nil r)
      · intro _
        rfl
    · rw [if_neg he]
      rw [List.isEmpty_iff] at he
      obtain ⟨r, hr⟩ := List.exists_mem_of_ne_nil _ he
      have hr2 := List.mem_filter.mp hr
      constructor
      · intro h
        cases hp : parseTimestamps pdt ((df.drop k).filter rowKept) with
        | none => rw [hp] at h; simp at h
        | some ts => rw [hp] at h; simp at h
      · intro hall
        exact absurd (hall r hr2.1) (by rw [hr2.2]; simp)

/-- C8 witness: the concrete no-date table yields the no-data-start error and
the concrete all-text-distance table yields the empty-after-cleaning error. -/
theorem c8_error_conditions_witness :
    pipelineFromDF exDate exDT noDateTable = .err .noDataStartFound ∧
      pipelineFromDF exDate exDT textDistanceTable = .err .emptyAfterCleaning := by
  constructor
  · exact ((c8_error_conditions exDate exDT).1 noDateTable).mpr (by decide)
  · exact ((c8_error_conditions exDate exDT).2.2 textDistanceTable 0 (by decide)
      (by decide)).mpr (by decide)

theorem padRow_take (w : ℕ) (hw : 4 ≤ w) (r : List Cell) :
    padRow 4 (r.take 4) = (padRow w r).take 4 := by
  unfold padRow
  rw [List.take_append_eq_append_take, List.take_replicate]
  rcases le_or_lt 4 r.length with hle | hlt
  · have h0 : 4 - r.length = 0 := Nat.sub_eq_zero_of_le hle
    have h1 : (r.take 4).length = 4 := by rw [List.length_take]; omega
    rw [h0, h1]
    simp
  · have h1 : r.take 4 = r := List.take_of_length_le (le_of_lt hlt)
    rw [h1]
    congr 2
    omega

theorem parseTimestamps_isSome (pdt : Cell → Cell → Option ℕ) :
    ∀ rows : List (List Cell),
      (∀ r ∈ rows, (pdt (cellAt r 0) (cellAt r 1)).isSome) →
        (parseTimestamps pdt rows).isSome := by
  intro rows
  induction rows with
  | nil => intro _; simp [parseTimestamps]
  | cons r rs ih =>
    intro h
    have h1 := h r (List.mem_cons_self r rs)
    have h2 := ih (fun r2 hm => h r2 (List.mem_cons_of_mem _ hm))
    rw [Option.isSome_iff_exists] at h1 h2
    obtain ⟨t, ht⟩ := h1
    obtain ⟨ts, hts⟩ := h2
    simp [parseTimestamps, ht, hts]

/-- C3 (amended): the Excel reader keeps exactly the first four columns of
the frame; a truncated frame whose width is not four makes the pipeline
raise the column-mismatch error instead of building samples; in the
successful case the sample values are the DISTANCE and SPEED cells of the
cleaned rows at or after the data start, in original row order. -/
theorem c3_series_builder_columns (pdate : Cell → Option ℕ)
    (pdt : Cell → Cell → Option ℕ) :
    (∀ raw, 4 ≤ tableWidth raw →
        readExcel raw = (readCsv raw).map (fun r => r.take 4)) ∧
      (∀ df k, findDataStartRow pdate df = some k → tableWidth (df.drop k) ≠ 4 →
        pipelineFromDF pdate pdt df = .raised .columnMismatch) ∧
      (∀ df s, pipelineFromDF pdate pdt df = .ok s →
        ∃ k, findDataStartRow pdate df = some k ∧
          s.map (fun x => (x.distance, x.speed))
            = ((df.drop k).filter rowKept).map
                (fun r => (rowDistance r, rowSpeed r))) := by
  refine ⟨?_, ?_, ?_⟩
  · intro raw h4
    rw [readExcel, readCsv, List.map_map]
    refine List.map_congr_left ?_
    intro r _
    have hmin : min (tableWidth raw) 4 = 4 := min_eq_right h4
    rw [hmin]
    exact padRow_take (tableWidth raw) h4 r
  · intro df k hf hw
    rw [pipelineFromDF_some pdate pdt df k hf, if_neg hw]
  · intro df s h
    cases hf : findDataStartRow pdate df with
    | none =>
      rw [pipelineFromDF_none pdate pdt df hf] at h
      simp at h
    | some k =>
      refine ⟨k, rfl, ?_⟩
      rw [pipelineFromDF_some pdate pdt df k hf] at h
      by_cases hw : tableWidth (df.drop k) = 4
      · rw [if_pos hw] at h
        by_cases he : ((df.drop k).filter rowKept).isEmpty
        · rw [if_pos he] at h
          simp at h
        · rw [if_neg he] at h
          cases hp : parseTimestamps pdt ((df.drop k).filter rowKept) with
          | none => rw [hp] at h; simp at h
          | some ts =>
            rw [hp] at h
            simp only [Outcome.ok.injEq] at h
            rw [← h]
            have hts : ts.length = ((df.drop k).filter rowKept).length :=
              parseTimestamps_length pdt _ _ hp
            have hcs : (cumulativeDistances (((df.drop k).filter rowKept).map
                rowDistance)).length = ((df.drop k).filter rowKept).length := by
              rw [cumulativeDistances_length, List.length_map]
            unfold buildSamples
            rw [assemble_map_pair, assemble_length_of_eq _ _ _ hts hcs,
              List.take_length]
      · rw [if_neg hw] at h
        simp at h

/-- C3 counterexample: a five-column CSV table with two clean data rows makes
process_file raise the column-mismatch error instead of keeping the first
four columns, while the same rows truncated to four columns produce the full
two-sample sequence. -/
theorem c3_extra_column_raises :
    processFile exDate exDT true (some fiveColumnTable) = .raised .columnMismatch ∧
      pipelineFromDF exDate exDT (fiveColumnTable.map (fun r => r.take 4))
        = .ok [⟨1011, 5, 5, 5/1000⟩, ⟨2012, 3, 4, 8/1000⟩] := by
  constructor
  · decide
  · norm_num [pipelineFromDF, findDataStartRow, exDate, exDT, tableWidth, rowKept,
      cellAt, Cell.isna, Cell.toNumeric, parseTimestamps, buildSamples, assemble,
      rowDistance, rowSpeed, cumulativeDistances, cumsumFrom, List.filter,
      fiveColumnTable]

/-- C3 witness at the five-column table: its Excel read is the truncation of
its CSV read, and the CSV pipeline on it raises the column mismatch. -/
theorem c3_series_builder_columns_witness :
    readExcel fiveColumnTable = (readCsv fiveColumnTable).map (fun r => r.take 4) ∧
      pipelineFromDF exDate exDT fiveColumnTable = .raised .columnMismatch :=
  ⟨(c3_series_builder_columns exDate exDT).1 fiveColumnTable (by decide),
    (c3_series_builder_columns exDate exDT).2.1 fiveColumnTable 0 (by decide)
      (by decide)⟩

/-- C2 (amended): an unreadable file is returned as the structured
unreadable-table error; rows failing the cleaning rule are excluded from the
cleaned rows; when the frame body has width four and the date-time parse
succeeds on every cleaned row the pipeline never raises, returning samples or
the empty-after-cleaning error; the structured errors are only the
no-data-start and empty-after-cleaning kinds (plus unreadable-table at the
reading step).  A cleaned row whose date-time fails to parse, however, makes
the pipeline raise, as the counterexample shows. -/
theorem c2_lenient_cleaning (pdate : Cell → Option ℕ)
    (pdt : Cell → Cell → Option ℕ) :
    (∀ isCsv, processFile pdate pdt isCsv none = .err .unreadableTable) ∧
      (∀ df k r, findDataStartRow pdate df = some k → r ∈ df.drop k →
        rowKept r = false → r ∉ (df.drop k).filter rowKept) ∧
      (∀ df k, findDataStartRow pdate df = some k → tableWidth (df.drop k) = 4 →
        (∀ r ∈ (df.drop k).filter rowKept,
          (pdt (cellAt r 0) (cellAt r 1)).isSome) →
        (∃ s, pipelineFromDF pdate pdt df = .ok s) ∨
          pipelineFromDF pdate pdt df = .err .emptyAfterCleaning) ∧
      (∀ df e, pipelineFromDF pdate pdt df = .err e →
        e = .noDataStartFound ∨ e = .emptyAfterCleaning) := by
  refine ⟨?_, ?_, ?_, ?_⟩
  · intro _
    rfl
  · intro df k r _ _ hkf hmem
    have h2 := (List.mem_filter.mp hmem).2
    rw [hkf] at h2
    exact Bool.noConfusion h2
  · intro df k hf hw hparse
    rw [pipelineFromDF_some pdate pdt df k hf, if_pos hw]
    by_cases he : ((df.drop k).filter rowKept).isEmpty
    · rw [if_pos he]
      right
      rfl
    · rw [if_neg he]
      have hsome := parseTimestamps_isSome pdt _ hparse
      rw [Option.isSome_iff_exists] at hsome
      obtain ⟨ts, hts⟩ := hsome
      rw [hts]
      exact Or.inl ⟨_, rfl⟩
  · intro df e h
    cases hf : findDataStartRow pdate df with
    | none =>
      rw [pipelineFromDF_none pdate pdt df hf] at h
      simp only [Outcome.err.injEq] at h
      exact Or.inl h.symm
    | some k =>
      rw [pipelineFromDF_some pdate pdt df k hf] at h
      by_cases hw : tableWidth (df.drop k) = 4
      · rw [if_pos hw] at h
        by_cases he : ((df.drop k).filter rowKept).isEmpty
        · rw [if_pos he] at h
          simp only [Outcome.err.injEq] at h
          exact Or.inr h.symm
        · rw [if_neg he] at h
          cases hp : parseTimestamps pdt ((df.drop k).filter rowKept) with
          | none => rw [hp] at h; simp at h
          | some ts => rw [hp] at h; simp at h
      · rw [if_neg hw] at h
        simp at h

/-- C2 counterexample: a non-null unparseable DATE cell next to numeric
DISTANCE and SPEED cells survives the cleaning step and then makes the
date-time parse raise, escaping the pipeline instead of being silently
excluded. -/
theorem c2_unparseable_date_escapes :
    pipelineFromDF exDate exDT badDateTable = .raised .datetimeParseError := by
  decide

/-- C2 witness: the unreadable-table error case and the lenient run on the
concrete table whose third row (textual distance) is silently excluded. -/
theorem c2_lenient_cleaning_witness :
    processFile exDate exDT true none = .err .unreadableTable ∧
      ((∃ s, pipelineFromDF exDate exDT lenientTable = .ok s) ∨
        pipelineFromDF exDate exDT lenientTable = .err .emptyAfterCleaning) :=
  ⟨(c2_lenient_cleaning exDate exDT).1 true,
    (c2_lenient_cleaning exDate exDT).2.2.1 lenientTable 1 (by decide) (by decide)
      (by decide)⟩
